import Mathlib

/-!
Environment manifest validation (`internal/pkg/manifest/validate_env.go`)

A shallow embedding of the validators of the environment manifest and proofs of
their contract.

Conventions of the embedding:

* a Go `error` result is an `Option Err`: `none` is `nil`;
* a Go `*string` (and `*IPNet`, whose underlying type is `string`) is an
  `Option String`: `none` is the nil pointer;
* a Go slice whose nil-ness is observed by the code (`InternalALBSubnets`) is an
  `Option (List String)`: `none` is the nil slice, `some []` the empty non-nil slice;
* a Go `map[K]struct{}` / `map[K]bool` that only ever receives insertions is the
  `Finset` of its keys, `len` being `Finset.card`;
* `arn.Parse` belongs to the AWS SDK; the validators take it as a parameter
  `arnParse`, returning the parse error if there is one.
-/

namespace Manifest

/-! ## Errors -/

/-- The error values built by the validators. `errorsNew msg` is `errors.New(msg)` (or a
`fmt.Errorf` without `%w`), `wrapf p e` is `fmt.Errorf(p + ": %w", e)`, the two remaining
constructors are the struct errors `&errFieldMustBeSpecified` and `&errFieldMutualExclusive`
with the fields the validators set. -/
inductive Err where
  | errorsNew (msg : String)
  | wrapf (pfx : String) (inner : Err)
  | errFieldMustBeSpecified (missingField : String)
  | errFieldMutualExclusive (firstField secondField : String) (mustExist : Bool)
  deriving DecidableEq, Repr

/-- The package variable `errAZsNotEqual`. -/
def errAZsNotEqual : Err :=
  .errorsNew "public subnets and private subnets do not span the same availability zones"

/-- The package variable `minAZs`. -/
def minAZs : Nat := 2

/-- The SDK helper `aws.StringValue`: the pointed-to string, or `""` for a nil pointer. -/
def StringValue (p : Option String) : String := p.getD ""

/-! ## Data model (fields as the validators read them) -/

/-- One subnet entry: optional `SubnetID`, `CIDR` and `AZ`. -/
structure subnetConfiguration where
  SubnetID : Option String
  CIDR : Option String
  AZ : Option String
  deriving DecidableEq, Repr

/-- The public and the private subnet lists. -/
structure subnetsConfiguration where
  Public : List subnetConfiguration
  Private : List subnetConfiguration
  deriving DecidableEq, Repr

/-- The VPC configuration. -/
structure environmentVPCConfig where
  Subnets : subnetsConfiguration
  deriving DecidableEq, Repr

/-- The network configuration. -/
structure environmentNetworkConfig where
  VPC : environmentVPCConfig
  deriving DecidableEq, Repr

/-- The observability configuration; the validator reads none of its fields. -/
structure environmentObservability where
  deriving DecidableEq, Repr

/-- The public HTTP configuration. -/
structure publicHTTPConfig where
  Certificates : List String
  deriving DecidableEq, Repr

/-- The private HTTP configuration. -/
structure privateHTTPConfig where
  InternalALBSubnets : Option (List String)
  Certificates : List String
  deriving DecidableEq, Repr

/-- The HTTP configuration. -/
structure environmentHTTPConfig where
  Public : publicHTTPConfig
  Private : privateHTTPConfig
  deriving DecidableEq, Repr

/-- The environment configuration. -/
structure environmentConfig where
  Network : environmentNetworkConfig
  Observability : environmentObservability
  HTTPConfig : environmentHTTPConfig
  deriving DecidableEq, Repr

/-- The environment manifest; only the embedded `environmentConfig` is validated. -/
structure Environment where
  environmentConfig : environmentConfig
  deriving DecidableEq, Repr

/-- The elements of a slice that may be nil: a nil slice has none (its `len` is 0). -/
def sliceOf (s : Option (List String)) : List String := s.getD []

/-! ## Mode predicates -/

/-- Modelled from the spec: the method `imported()` of `environmentVPCConfig`, which is not
part of `validate_env.go`. Spec, data model: "`imported()` — true iff any subnet carries a
SubnetID". A subnet carries a field when the field is present (the pointer is not nil), the
presence test of `subnetConfiguration.Validate`. -/
def environmentVPCConfig.imported (cfg : environmentVPCConfig) : Bool :=
  (cfg.Subnets.Public ++ cfg.Subnets.Private).any fun s => s.SubnetID.isSome

/-- Modelled from the spec: the method `managedVPCCustomized()` of `environmentVPCConfig`,
which is not part of `validate_env.go`. Spec, data model: "`managedVPCCustomized()` — true iff
any subnet carries a CIDR or AZ". -/
def environmentVPCConfig.managedVPCCustomized (cfg : environmentVPCConfig) : Bool :=
  (cfg.Subnets.Public ++ cfg.Subnets.Private).any fun s => s.CIDR.isSome || s.AZ.isSome

/-! ## Validators -/

/-- The generic helper `areSetsEqual`: equal sizes and every key of `a` is a key of `b`. -/
def areSetsEqual {T : Type} [DecidableEq T] (a b : Finset T) : Bool :=
  if a.card ≠ b.card then false
  else decide (∀ k ∈ a, k ∈ b)

/-- The method `subnetConfiguration.Validate`. -/
def subnetConfiguration.Validate (c : subnetConfiguration) : Option Err :=
  if c.SubnetID ≠ none ∧ c.CIDR ≠ none then
    some (.errFieldMutualExclusive "id" "cidr" false)
  else if c.SubnetID ≠ none ∧ c.AZ ≠ none then
    some (.errFieldMutualExclusive "id" "az" false)
  else none

/-- One `for idx, subnet := range ...` loop of `subnetsConfiguration.Validate`, from index
`idx` on; `side` is `public` or `private`. -/
def subnetsLoop (side : String) : Nat → List subnetConfiguration → Option Err
  | _, [] => none
  | idx, subnet :: rest =>
    match subnet.Validate with
    | some err => some (.wrapf ("validate \"" ++ side ++ "[" ++ toString idx ++ "]\"") err)
    | none => subnetsLoop side (idx + 1) rest

/-- The method `subnetsConfiguration.Validate`. -/
def subnetsConfiguration.Validate (cs : subnetsConfiguration) : Option Err :=
  match subnetsLoop "public" 0 cs.Public with
  | some err => some err
  | none => subnetsLoop "private" 0 cs.Private

/-- One of the two `SubnetID` loops of `validateImportedVPC`, from index `idx` on. -/
def importedLoop (side : String) : Nat → List subnetConfiguration → Option Err
  | _, [] => none
  | idx, subnet :: rest =>
    if StringValue subnet.SubnetID = "" then
      some (.wrapf ("validate " ++ side ++ "[" ++ toString idx ++ "]")
        (.errFieldMustBeSpecified "id"))
    else importedLoop side (idx + 1) rest

/-- The method `environmentVPCConfig.validateImportedVPC`. -/
def environmentVPCConfig.validateImportedVPC (cfg : environmentVPCConfig) : Option Err :=
  match importedLoop "public" 0 cfg.Subnets.Public with
  | some err => some err
  | none =>
    match importedLoop "private" 0 cfg.Subnets.Private with
    | some err => some err
    | none =>
      if cfg.Subnets.Private.length + cfg.Subnets.Public.length ≤ 0 then
        some (.errorsNew "VPC must have subnets in order to proceed with environment creation")
      else if cfg.Subnets.Public.length = 1 then
        some (.errorsNew
          "validate \"public\": at least two public subnets must be imported to enable Load Balancing")
      else if cfg.Subnets.Private.length = 1 then
        some (.errorsNew "validate \"private\": at least two private subnets must be imported")
      else none

/-- One of the two CIDR/AZ loops of `validateManagedVPC`, from index `idx` on, threading the
CIDR map and the AZ map of its side; an entry without CIDR ends the loop with an error. -/
def managedLoop (side : String) :
    Nat → List subnetConfiguration → Finset String → Finset String →
      Except Err (Finset String × Finset String)
  | _, [], cidrs, azs => .ok (cidrs, azs)
  | idx, subnet :: rest, cidrs, azs =>
    if StringValue subnet.CIDR = "" then
      .error (.wrapf ("validate " ++ side ++ "[" ++ toString idx ++ "]")
        (.errFieldMustBeSpecified "cidr"))
    else
      managedLoop side (idx + 1) rest (insert (StringValue subnet.CIDR) cidrs)
        (if StringValue subnet.AZ ≠ "" then insert (StringValue subnet.AZ) azs else azs)

/-- The checks of `validateManagedVPC` that follow the two loops. -/
def managedChecks (publicAZs privateAZs publicCIDRs privateCIDRs : Finset String) :
    Option Err :=
  if !areSetsEqual publicAZs privateAZs then some errAZsNotEqual
  else
    let numAZs := publicAZs.card
    if numAZs = 0 then none
    else if numAZs < minAZs then
      some (.errorsNew ("require at least " ++ toString minAZs ++ " availability zones"))
    else if publicCIDRs.card ≠ numAZs then
      some (.errorsNew ("validate \"public\": number of public subnet CIDRs ("
        ++ toString publicCIDRs.card ++ ") does not match number of AZs ("
        ++ toString publicAZs.card ++ ")"))
    else if privateCIDRs.card ≠ numAZs then
      some (.errorsNew ("validate \"private\": number of private subnet CIDRs ("
        ++ toString privateCIDRs.card ++ ") does not match number of AZs ("
        ++ toString publicAZs.card ++ ")"))
    else none

/-- The method `environmentVPCConfig.validateManagedVPC`. -/
def environmentVPCConfig.validateManagedVPC (cfg : environmentVPCConfig) : Option Err :=
  match managedLoop "public" 0 cfg.Subnets.Public ∅ ∅ with
  | .error err => some err
  | .ok (publicCIDRs, publicAZs) =>
    match managedLoop "private" 0 cfg.Subnets.Private ∅ ∅ with
    | .error err => some err
    | .ok (privateCIDRs, privateAZs) =>
      managedChecks publicAZs privateAZs publicCIDRs privateCIDRs

/-- The method `environmentVPCConfig.Validate`. -/
def environmentVPCConfig.Validate (cfg : environmentVPCConfig) : Option Err :=
  if cfg.imported && cfg.managedVPCCustomized then
    some (.errorsNew ("cannot import VPC resources (with \"id\" fields) and customize VPC "
      ++ "resources (with \"cidr\" and \"az\" fields) at the same time"))
  else
    match cfg.Subnets.Validate with
    | some err => some (.wrapf "validate \"subnets\"" err)
    | none =>
      match (if cfg.imported then cfg.validateImportedVPC else none) with
      | some err => some (.wrapf "validate \"subnets\" for an imported VPC" err)
      | none =>
        match (if cfg.managedVPCCustomized then cfg.validateManagedVPC else none) with
        | some err => some (.wrapf "validate \"subnets\" for an adjusted VPC" err)
        | none => none

/-- The method `environmentNetworkConfig.Validate`. -/
def environmentNetworkConfig.Validate (n : environmentNetworkConfig) : Option Err :=
  match n.VPC.Validate with
  | some err => some (.wrapf "validate \"vpc\"" err)
  | none => none

/-- The method `environmentObservability.Validate`. -/
def environmentObservability.Validate (_o : environmentObservability) : Option Err := none

/-- The certificate loop shared by `publicHTTPConfig.Validate` and
`privateHTTPConfig.Validate`, from index `idx` on. -/
def certificatesLoop (arnParse : String → Option Err) : Nat → List String → Option Err
  | _, [] => none
  | idx, certARN :: rest =>
    match arnParse certARN with
    | some err => some (.wrapf ("parse \"certificates[" ++ toString idx ++ "]\"") err)
    | none => certificatesLoop arnParse (idx + 1) rest

/-- The method `publicHTTPConfig.Validate`. -/
def publicHTTPConfig.Validate (arnParse : String → Option Err) (cfg : publicHTTPConfig) :
    Option Err :=
  certificatesLoop arnParse 0 cfg.Certificates

/-- The method `privateHTTPConfig.Validate`. -/
def privateHTTPConfig.Validate (arnParse : String → Option Err) (cfg : privateHTTPConfig) :
    Option Err :=
  certificatesLoop arnParse 0 cfg.Certificates

/-- The method `environmentHTTPConfig.Validate`. -/
def environmentHTTPConfig.Validate (arnParse : String → Option Err)
    (cfg : environmentHTTPConfig) : Option Err :=
  match cfg.Public.Validate arnParse with
  | some err => some (.wrapf "validate \"public\"" err)
  | none =>
    match cfg.Private.Validate arnParse with
    | some err => some (.wrapf "validate \"private\"" err)
    | none => none

/-- The inner loop of `validateInternalALBSubnets` for one placement subnet: every imported
subnet whose `SubnetID` value equals it records it in the map. -/
def markImported (placementSubnet : String) (subnets : List subnetConfiguration)
    (isImported : Finset String) : Finset String :=
  subnets.foldl
    (fun m subnet => if placementSubnet = StringValue subnet.SubnetID then
      insert placementSubnet m else m)
    isImported

/-- The method `environmentConfig.validateInternalALBSubnets`. -/
def environmentConfig.validateInternalALBSubnets (c : environmentConfig) : Option Err :=
  let placement := sliceOf c.HTTPConfig.Private.InternalALBSubnets
  let subnets := c.Network.VPC.Subnets.Private ++ c.Network.VPC.Subnets.Public
  let isImported := placement.foldl (fun m placementSubnet =>
    markImported placementSubnet subnets m) ∅
  if isImported.card ≠ placement.length then
    some (.errorsNew "subnet(s) specified for internal ALB placement not imported")
  else none

/-- The method `environmentConfig.Validate`. -/
def environmentConfig.Validate (arnParse : String → Option Err) (e : environmentConfig) :
    Option Err :=
  match e.Network.Validate with
  | some err => some (.wrapf "validate \"network\"" err)
  | none =>
    match e.Observability.Validate with
    | some err => some (.wrapf "validate \"observability\"" err)
    | none =>
      match e.HTTPConfig.Validate arnParse with
      | some err => some (.wrapf "validate \"http config\"" err)
      | none =>
        if e.HTTPConfig.Private.InternalALBSubnets ≠ none then
          if !e.Network.VPC.imported then
            some (.errorsNew
              "in order to specify internal ALB subnet placement, subnets must be imported")
          else
            match e.validateInternalALBSubnets with
            | some err => some err
            | none => none
        else none

/-- The method `Environment.Validate`. -/
def Environment.Validate (arnParse : String → Option Err) (e : Environment) : Option Err :=
  match e.environmentConfig.Validate arnParse with
  | some err => some (.wrapf "validate \"network\"" err)
  | none => none


/-! ## Specification-side notions -/

/-- The `SubnetID` values (`aws.StringValue`) of a list of subnet entries. -/
def subnetIDs (subnets : List subnetConfiguration) : List String :=
  subnets.map fun s => StringValue s.SubnetID

/-- The set of distinct CIDR values (`aws.StringValue`) of a subnet list. -/
def cidrSet (l : List subnetConfiguration) : Finset String :=
  (l.map fun s => StringValue s.CIDR).toFinset

/-- The set of non-empty AZ values (`aws.StringValue`) of a subnet list. -/
def azSet (l : List subnetConfiguration) : Finset String :=
  ((l.map fun s => StringValue s.AZ).filter fun a => a ≠ "").toFinset

/-! ## Concrete manifests -/

/-- A parser that accepts every certificate identifier. -/
def arnAccept : String → Option Err := fun _ => none

/-- An imported subnet entry `id: <id>`. -/
def importedSubnet (id : String) : subnetConfiguration := ⟨some id, none, none⟩

/-- A managed subnet entry `cidr: <cidr>, az: <az>`. -/
def managedSubnet (cidr az : String) : subnetConfiguration := ⟨none, some cidr, some az⟩

/-- An environment configuration without certificates. -/
def mkEnv (pub priv : List subnetConfiguration) (alb : Option (List String)) :
    environmentConfig :=
  { Network := ⟨⟨⟨pub, priv⟩⟩⟩, Observability := ⟨⟩, HTTPConfig := ⟨⟨[]⟩, ⟨alb, []⟩⟩ }

/-- Two imported public subnets; the internal ALB placement lists `sub-1` twice. -/
def envRepeatedPlacement : environmentConfig :=
  mkEnv [importedSubnet "sub-1", importedSubnet "sub-2"] [] (some ["sub-1", "sub-1"])

/-- Two imported public and two imported private subnets; the internal ALB is placed in one
subnet of each side. -/
def envPlacementImported : environmentConfig :=
  mkEnv [importedSubnet "sub-1", importedSubnet "sub-2"]
    [importedSubnet "sub-3", importedSubnet "sub-4"] (some ["sub-3", "sub-1"])

/-- No subnets at all and `internal_alb_subnets: []`, an empty list that is not nil. -/
def envEmptyPlacement : environmentConfig := mkEnv [] [] (some [])

/-- A managed VPC over two AZs with an internal ALB placement. -/
def envPlacementManaged : environmentConfig :=
  mkEnv [managedSubnet "10.0.0.0/24" "a", managedSubnet "10.0.1.0/24" "b"]
    [managedSubnet "10.0.2.0/24" "b", managedSubnet "10.0.3.0/24" "a"] (some ["sub-1"])

/-- A managed VPC over two AZs without internal ALB placement (nil list). -/
def envManagedNoPlacement : environmentConfig :=
  mkEnv [managedSubnet "10.0.0.0/24" "a", managedSubnet "10.0.1.0/24" "b"]
    [managedSubnet "10.0.2.0/24" "b", managedSubnet "10.0.3.0/24" "a"] none

/-- An imported public subnet, then a private list whose second entry has no `SubnetID`. -/
def vpcMissingID : environmentVPCConfig :=
  ⟨⟨[importedSubnet "sub-1"], [importedSubnet "sub-2", ⟨none, none, none⟩]⟩⟩

/-- A single public entry that carries both `id` and `cidr`. -/
def vpcMixed : environmentVPCConfig :=
  ⟨⟨[⟨some "sub-1", some "10.0.0.0/24", none⟩], []⟩⟩

/-- Public AZs a, b over one CIDR value; private AZs a, c. -/
def vpcAZMismatch : environmentVPCConfig :=
  ⟨⟨[managedSubnet "10.0.0.0/24" "a", managedSubnet "10.0.0.0/24" "b"],
    [managedSubnet "10.0.2.0/24" "a", managedSubnet "10.0.3.0/24" "c"]⟩⟩

/-- Public AZs [a, b], private AZs [a, b]. -/
def vpcTwoAZs : environmentVPCConfig :=
  ⟨⟨[managedSubnet "10.0.0.0/24" "a", managedSubnet "10.0.1.0/24" "b"],
    [managedSubnet "10.0.2.0/24" "a", managedSubnet "10.0.3.0/24" "b"]⟩⟩

/-- Public AZs [a, b], private AZs [b, a]: `vpcTwoAZs` with the private entries swapped. -/
def vpcTwoAZsSwapped : environmentVPCConfig :=
  ⟨⟨[managedSubnet "10.0.0.0/24" "a", managedSubnet "10.0.1.0/24" "b"],
    [managedSubnet "10.0.3.0/24" "b", managedSubnet "10.0.2.0/24" "a"]⟩⟩

/-! ## Error text -/

/-- The `Error()` texts of the two struct errors; their methods are not part of
`validate_env.go`, so the texts are parameters. -/
structure errTexts where
  mustBeSpecified : String → String
  mutualExclusive : String → String → Bool → String

/-- The `Error()` text of an error value: `errors.New(msg)` reads `msg`, and
`fmt.Errorf(p + ": %w", e)` reads `p`, a colon, a blank and the text of `e`. -/
def Err.Error (t : errTexts) : Err → String
  | .errorsNew msg => msg
  | .wrapf pfx inner => pfx ++ ": " ++ inner.Error t
  | .errFieldMustBeSpecified missingField => t.mustBeSpecified missingField
  | .errFieldMutualExclusive firstField secondField mustExist =>
    t.mutualExclusive firstField secondField mustExist

/-- Sample texts for the struct errors. -/
def sampleTexts : errTexts :=
  ⟨fun f => "\"" ++ f ++ "\" must be specified",
    fun a b _ => "must specify one, not both, of \"" ++ a ++ "\" and \"" ++ b ++ "\""⟩

/-! ## Validation under an explicit map iteration order

Go leaves the order of `for k := range m` unspecified. The only loop over a map is the one of
`areSetsEqual`; the definitions of this section repeat the call chain from
`environmentConfig.Validate` down to it with the order made explicit: `order m` is the
sequence in which the keys of the map `m` are handed out. -/

/-- A possible iteration order: every key of the map exactly once. -/
def keysOrder {T : Type} [DecidableEq T] (order : Finset T → List T) : Prop :=
  ∀ m : Finset T, (order m).Nodup ∧ (order m).toFinset = m

/-- The loop `for k := range a` of `areSetsEqual` over the keys in the sequence `ks`. -/
def rangeLoop {T : Type} [DecidableEq T] (b : Finset T) : List T → Bool
  | [] => true
  | k :: rest => if k ∉ b then false else rangeLoop b rest

/-- The helper `areSetsEqual`, iterating over `a` in the order `order a`. -/
def areSetsEqualIn {T : Type} [DecidableEq T] (order : Finset T → List T)
    (a b : Finset T) : Bool :=
  if a.card ≠ b.card then false
  else rangeLoop b (order a)

/-- The checks of `validateManagedVPC` that follow the two loops, under `order`. -/
def managedChecksIn (order : Finset String → List String)
    (publicAZs privateAZs publicCIDRs privateCIDRs : Finset String) : Option Err :=
  if !areSetsEqualIn order publicAZs privateAZs then some errAZsNotEqual
  else
    let numAZs := publicAZs.card
    if numAZs = 0 then none
    else if numAZs < minAZs then
      some (.errorsNew ("require at least " ++ toString minAZs ++ " availability zones"))
    else if publicCIDRs.card ≠ numAZs then
      some (.errorsNew ("validate \"public\": number of public subnet CIDRs ("
        ++ toString publicCIDRs.card ++ ") does not match number of AZs ("
        ++ toString publicAZs.card ++ ")"))
    else if privateCIDRs.card ≠ numAZs then
      some (.errorsNew ("validate \"private\": number of private subnet CIDRs ("
        ++ toString privateCIDRs.card ++ ") does not match number of AZs ("
        ++ toString publicAZs.card ++ ")"))
    else none

/-- The method `environmentVPCConfig.validateManagedVPC`, under `order`. -/
def environmentVPCConfig.validateManagedVPCIn (order : Finset String → List String)
    (cfg : environmentVPCConfig) : Option Err :=
  match managedLoop "public" 0 cfg.Subnets.Public ∅ ∅ with
  | .error err => some err
  | .ok (publicCIDRs, publicAZs) =>
    match managedLoop "private" 0 cfg.Subnets.Private ∅ ∅ with
    | .error err => some err
    | .ok (privateCIDRs, privateAZs) =>
      managedChecksIn order publicAZs privateAZs publicCIDRs privateCIDRs

/-- The method `environmentVPCConfig.Validate`, under `order`. -/
def environmentVPCConfig.ValidateIn (order : Finset String → List String)
    (cfg : environmentVPCConfig) : Option Err :=
  if cfg.imported && cfg.managedVPCCustomized then
    some (.errorsNew ("cannot import VPC resources (with \"id\" fields) and customize VPC "
      ++ "resources (with \"cidr\" and \"az\" fields) at the same time"))
  else
    match cfg.Subnets.Validate with
    | some err => some (.wrapf "validate \"subnets\"" err)
    | none =>
      match (if cfg.imported then cfg.validateImportedVPC else none) with
      | some err => some (.wrapf "validate \"subnets\" for an imported VPC" err)
      | none =>
        match (if cfg.managedVPCCustomized then cfg.validateManagedVPCIn order else none) with
        | some err => some (.wrapf "validate \"subnets\" for an adjusted VPC" err)
        | none => none

/-- The method `environmentNetworkConfig.Validate`, under `order`. -/
def environmentNetworkConfig.ValidateIn (order : Finset String → List String)
    (n : environmentNetworkConfig) : Option Err :=
  match n.VPC.ValidateIn order with
  | some err => some (.wrapf "validate \"vpc\"" err)
  | none => none

/-- The method `environmentConfig.Validate`, under `order`. -/
def environmentConfig.ValidateIn (order : Finset String → List String)
    (arnParse : String → Option Err) (e : environmentConfig) : Option Err :=
  match e.Network.ValidateIn order with
  | some err => some (.wrapf "validate \"network\"" err)
  | none =>
    match e.Observability.Validate with
    | some err => some (.wrapf "validate \"observability\"" err)
    | none =>
      match e.HTTPConfig.Validate arnParse with
      | some err => some (.wrapf "validate \"http config\"" err)
      | none =>
        if e.HTTPConfig.Private.InternalALBSubnets ≠ none then
          if !e.Network.VPC.imported then
            some (.errorsNew
              "in order to specify internal ALB subnet placement, subnets must be imported")
          else
            match e.validateInternalALBSubnets with
            | some err => some err
            | none => none
        else none

/-- The keys in ascending order. -/
def ascendingOrder (m : Finset String) : List String := m.sort (· ≤ ·)

/-- The keys in descending order. -/
def descendingOrder (m : Finset String) : List String := (m.sort (· ≤ ·)).reverse

/-! ## Further concrete manifests -/

/-- Three public entries over two AZs, the third repeating the CIDR and AZ of the first;
two private entries over the same AZs. -/
def vpcRepeatedCIDR : environmentVPCConfig :=
  ⟨⟨[managedSubnet "10.0.0.0/24" "a", managedSubnet "10.0.1.0/24" "b",
      managedSubnet "10.0.0.0/24" "a"],
    [managedSubnet "10.0.2.0/24" "a", managedSubnet "10.0.3.0/24" "b"]⟩⟩

/-- The entry `id: ""`, `cidr: 10.0.0.0/24`: a SubnetID that is present and empty. -/
def subnetEmptyID : subnetConfiguration := ⟨some "", some "10.0.0.0/24", none⟩

/-- The entry `id: sub-1`, `cidr: 10.0.0.0/24`, `az: a`. -/
def subnetAllFields : subnetConfiguration := ⟨some "sub-1", some "10.0.0.0/24", some "a"⟩

/-- A valid public entry followed by one with `id` and `az`; a private entry with `id` and
`cidr`. -/
def subnetsSecondPublicInvalid : subnetsConfiguration :=
  ⟨[importedSubnet "sub-1", ⟨some "sub-2", none, some "a"⟩],
    [⟨some "sub-3", some "10.0.0.0/24", none⟩]⟩

/-- The scenario of the spec: public = [sub-1, sub-2], private = [sub-3],
InternalALBSubnets = [sub-1]. -/
def envOnePrivate : environmentConfig :=
  mkEnv [importedSubnet "sub-1", importedSubnet "sub-2"] [importedSubnet "sub-3"]
    (some ["sub-1"])

/-- A parser that accepts one sample certificate ARN and rejects every other string. -/
def arnSample : String → Option Err := fun s =>
  if s = "arn:aws:acm:us-west-2:1111:certificate/c1" then none
  else some (.errorsNew "arn: invalid prefix")

/-- A public certificate list whose entry 1 is not an ARN; the private list is not an ARN
either. -/
def httpBadCertificate : environmentHTTPConfig :=
  ⟨⟨["arn:aws:acm:us-west-2:1111:certificate/c1", "certificate-1"]⟩,
    ⟨none, ["certificate-2"]⟩⟩

/-- An environment without subnets whose public certificate 1 is not an ARN. -/
def environmentBadCertificate : Environment :=
  ⟨{ Network := ⟨⟨⟨[], []⟩⟩⟩, Observability := ⟨⟩, HTTPConfig := httpBadCertificate }⟩

/-- The environment manifest around `envOnePrivate`. -/
def environmentOnePrivate : Environment := ⟨envOnePrivate⟩

/-- A VPC whose only entry, a public one, has none of the three fields. -/
def vpcBareEntry : environmentVPCConfig := ⟨⟨[⟨none, none, none⟩], []⟩⟩

/-- The AZ sets a, b (public) and a, c (private) inside an environment configuration. -/
def envAZMismatch : environmentConfig :=
  mkEnv vpcAZMismatch.Subnets.Public vpcAZMismatch.Subnets.Private none

/-! ## Lemmas: internal ALB placement -/

theorem markImported_eq (p : String) (subnets : List subnetConfiguration)
    (m : Finset String) :
    markImported p subnets m = if p ∈ subnetIDs subnets then insert p m else m := by
  induction subnets generalizing m with
  | nil => simp [markImported, subnetIDs]
  | cons s rest ih =>
    have step : markImported p (s :: rest) m =
        markImported p rest (if p = StringValue s.SubnetID then insert p m else m) := by
      simp [markImported]
    rw [step, ih]
    by_cases h : p = StringValue s.SubnetID <;>
      by_cases h2 : p ∈ subnetIDs rest <;>
        simp [subnetIDs] at h2 ⊢ <;> simp [h, h2]

theorem foldl_markImported (placement : List String) (subnets : List subnetConfiguration)
    (m : Finset String) :
    placement.foldl (fun m p => markImported p subnets m) m =
      m ∪ (placement.filter fun p => decide (p ∈ subnetIDs subnets)).toFinset := by
  induction placement generalizing m with
  | nil => simp
  | cons p rest ih =>
    rw [List.foldl_cons, ih, markImported_eq]
    by_cases h : p ∈ subnetIDs subnets
    · simp [h, List.filter_cons]
    · simp [h, List.filter_cons]

theorem card_filter_toFinset_eq_length_iff (l : List String) (q : String → Bool) :
    (l.filter q).toFinset.card = l.length ↔ l.Nodup ∧ ∀ a ∈ l, q a = true := by
  constructor
  · intro h
    have h1 : (l.filter q).toFinset.card ≤ (l.filter q).length := List.toFinset_card_le _
    have h2 : (l.filter q).length ≤ l.length := List.length_filter_le q l
    have hlen : (l.filter q).length = l.length := by omega
    have hall : ∀ a ∈ l, q a = true := List.filter_length_eq_length.mp hlen
    have hfl : l.filter q = l := List.filter_eq_self.mpr hall
    rw [hfl] at h
    refine ⟨?_, hall⟩
    rw [List.card_toFinset] at h
    have : l.dedup = l := (List.dedup_sublist l).eq_of_length h
    exact List.dedup_eq_self.mp this
  · rintro ⟨hnd, hall⟩
    rw [List.filter_eq_self.mpr hall]
    exact List.toFinset_card_of_nodup hnd

/-- Characterisation of `validateInternalALBSubnets`. -/
theorem validateInternalALBSubnets_eq_none_iff (c : environmentConfig) :
    c.validateInternalALBSubnets = none ↔
      (sliceOf c.HTTPConfig.Private.InternalALBSubnets).Nodup ∧
      ∀ id ∈ sliceOf c.HTTPConfig.Private.InternalALBSubnets,
        id ∈ subnetIDs (c.Network.VPC.Subnets.Private ++ c.Network.VPC.Subnets.Public) := by
  unfold environmentConfig.validateInternalALBSubnets
  simp only [foldl_markImported, Finset.empty_union]
  rw [← decide_eq_true_iff (p := List.Nodup _)]
  have key := card_filter_toFinset_eq_length_iff
    (sliceOf c.HTTPConfig.Private.InternalALBSubnets)
    (fun p => decide (p ∈ subnetIDs
      (c.Network.VPC.Subnets.Private ++ c.Network.VPC.Subnets.Public)))
  simp only [decide_eq_true_eq] at key ⊢
  rw [← key]
  split <;> simp_all

theorem environmentConfig_Validate_of_children (arnParse : String → Option Err)
    (e : environmentConfig) (hn : e.Network.Validate = none)
    (hh : e.HTTPConfig.Validate arnParse = none) :
    e.Validate arnParse =
      if e.HTTPConfig.Private.InternalALBSubnets ≠ none then
        if !e.Network.VPC.imported then
          some (.errorsNew
            "in order to specify internal ALB subnet placement, subnets must be imported")
        else e.validateInternalALBSubnets
      else none := by
  unfold environmentConfig.Validate
  rw [hn, hh]
  simp only [environmentObservability.Validate]
  split
  · split
    · rfl
    · cases e.validateInternalALBSubnets <;> rfl
  · rfl

/-! ## Lemmas: VPC validation -/

theorem importedLoop_eq_none_iff (side : String) (idx : Nat) (l : List subnetConfiguration) :
    importedLoop side idx l = none ↔ ∀ s ∈ l, StringValue s.SubnetID ≠ "" := by
  induction l generalizing idx with
  | nil => simp [importedLoop]
  | cons s rest ih =>
    by_cases h : StringValue s.SubnetID = "" <;> simp [importedLoop, h, ih]

theorem importedLoop_first (side : String) (idx i : Nat) (l : List subnetConfiguration)
    (s : subnetConfiguration) (hpre : ∀ t ∈ l.take i, StringValue t.SubnetID ≠ "")
    (hi : l[i]? = some s) (hs : StringValue s.SubnetID = "") :
    importedLoop side idx l = some (.wrapf ("validate " ++ side ++ "[" ++ toString (idx + i) ++ "]")
      (.errFieldMustBeSpecified "id")) := by
  induction l generalizing idx i with
  | nil => simp at hi
  | cons a rest ih =>
    cases i with
    | zero =>
      simp at hi
      subst hi
      simp [importedLoop, hs]
    | succ j =>
      have ha : StringValue a.SubnetID ≠ "" := hpre a (by simp)
      have hrest : ∀ t ∈ rest.take j, StringValue t.SubnetID ≠ "" := fun t ht =>
        hpre t (by simp [ht])
      simp only [List.getElem?_cons_succ] at hi
      simp only [importedLoop, ha, if_false]
      rw [ih (idx + 1) j hrest hi, Nat.add_right_comm idx 1 j, Nat.add_assoc idx j 1]

theorem validateImportedVPC_eq_none_iff (cfg : environmentVPCConfig) :
    cfg.validateImportedVPC = none ↔
      (∀ s ∈ cfg.Subnets.Public, StringValue s.SubnetID ≠ "") ∧
      (∀ s ∈ cfg.Subnets.Private, StringValue s.SubnetID ≠ "") ∧
      0 < cfg.Subnets.Public.length + cfg.Subnets.Private.length ∧
      cfg.Subnets.Public.length ≠ 1 ∧ cfg.Subnets.Private.length ≠ 1 := by
  unfold environmentVPCConfig.validateImportedVPC
  rw [← importedLoop_eq_none_iff "public" 0, ← importedLoop_eq_none_iff "private" 0]
  cases h1 : importedLoop "public" 0 cfg.Subnets.Public with
  | some e => simp
  | none =>
    cases h2 : importedLoop "private" 0 cfg.Subnets.Private with
    | some e => simp
    | none =>
      simp only [true_and]
      split_ifs with ha hb hc <;> simp <;> omega

theorem subnetsLoop_eq_none_of (side : String) (idx : Nat) (l : List subnetConfiguration)
    (h : ∀ s ∈ l, s.Validate = none) : subnetsLoop side idx l = none := by
  induction l generalizing idx with
  | nil => rfl
  | cons s rest ih =>
    have hs : s.Validate = none := h s (by simp)
    simp only [subnetsLoop, hs]
    exact ih (idx + 1) fun t ht => h t (by simp [ht])

theorem subnets_Validate_of_not_customized (cfg : environmentVPCConfig)
    (hman : cfg.managedVPCCustomized = false) : cfg.Subnets.Validate = none := by
  have hall : ∀ s ∈ cfg.Subnets.Public ++ cfg.Subnets.Private, s.Validate = none := by
    intro s hs
    have h := hman
    simp only [environmentVPCConfig.managedVPCCustomized, List.any_eq_false] at h
    have hs2 := h s hs
    simp only [Bool.or_eq_true, not_or, Option.isSome_iff_ne_none, ne_eq, not_not] at hs2
    simp [subnetConfiguration.Validate, hs2.1, hs2.2]
  unfold subnetsConfiguration.Validate
  rw [subnetsLoop_eq_none_of "public" 0 _ fun s hs => hall s (by simp [hs]),
    subnetsLoop_eq_none_of "private" 0 _ fun s hs => hall s (by simp [hs])]

theorem Validate_of_imported_mode (cfg : environmentVPCConfig)
    (himp : cfg.imported = true) (hman : cfg.managedVPCCustomized = false) :
    cfg.Validate =
      cfg.validateImportedVPC.map (Err.wrapf "validate \"subnets\" for an imported VPC") := by
  unfold environmentVPCConfig.Validate
  rw [subnets_Validate_of_not_customized cfg hman]
  simp only [himp, hman]
  cases cfg.validateImportedVPC <;> simp

theorem areSetsEqual_iff {T : Type} [DecidableEq T] (a b : Finset T) :
    areSetsEqual a b = true ↔ a = b := by
  unfold areSetsEqual
  constructor
  · intro h
    by_cases hc : a.card = b.card
    · simp only [hc, ne_eq, not_true_eq_false, if_false, decide_eq_true_eq] at h
      exact Finset.eq_of_subset_of_card_le h (Nat.le_of_eq hc.symm)
    · simp [hc] at h
  · rintro rfl
    simp

theorem managedLoop_ok (side : String) (idx : Nat) (l : List subnetConfiguration)
    (cidrs azs : Finset String) (h : ∀ s ∈ l, StringValue s.CIDR ≠ "") :
    managedLoop side idx l cidrs azs = .ok (cidrs ∪ cidrSet l, azs ∪ azSet l) := by
  induction l generalizing idx cidrs azs with
  | nil => simp [managedLoop, cidrSet, azSet]
  | cons s rest ih =>
    have hs : StringValue s.CIDR ≠ "" := h s (by simp)
    have hrest : ∀ t ∈ rest, StringValue t.CIDR ≠ "" := fun t ht => h t (by simp [ht])
    simp only [managedLoop, hs, if_false]
    rw [ih _ _ _ hrest]
    by_cases ha : StringValue s.AZ = ""
    · simp [cidrSet, azSet, ha, List.filter_cons]
    · simp [cidrSet, azSet, ha, List.filter_cons]

theorem managedLoop_error (side : String) (idx : Nat) (l : List subnetConfiguration)
    (cidrs azs : Finset String) (h : ∃ s ∈ l, StringValue s.CIDR = "") :
    ∃ e, managedLoop side idx l cidrs azs = .error e := by
  induction l generalizing idx cidrs azs with
  | nil => simp at h
  | cons s rest ih =>
    by_cases hs : StringValue s.CIDR = ""
    · simp [managedLoop, hs]
    · obtain ⟨t, ht, htc⟩ := h
      have htr : t ∈ rest := by
        rcases List.mem_cons.mp ht with rfl | h'
        · exact absurd htc hs
        · exact h'
      simp only [managedLoop, hs, if_false]
      exact ih _ _ _ ⟨t, htr, htc⟩

theorem managedChecks_eq_none_iff (pa qa pc qc : Finset String) :
    managedChecks pa qa pc qc = none ↔
      pa = qa ∧ (pa.card = 0 ∨ (2 ≤ pa.card ∧ pc.card = pa.card ∧ qc.card = pa.card)) := by
  unfold managedChecks
  by_cases heq : pa = qa
  · subst heq
    have hset : areSetsEqual pa pa = true := (areSetsEqual_iff pa pa).mpr rfl
    simp only [hset, Bool.not_true, Bool.false_eq_true, if_false, minAZs, true_and]
    split_ifs with h0 h1 h2 h3
    · simp [h0]
    · simp only [reduceCtorEq, false_iff]; omega
    · simp only [reduceCtorEq, false_iff]; omega
    · simp only [reduceCtorEq, false_iff]; omega
    · simp only [true_iff]; omega
  · have hset : areSetsEqual pa qa = false := by
      rw [← Bool.not_eq_true, areSetsEqual_iff]; exact heq
    simp [hset, heq]

theorem validateManagedVPC_of_cidrs (cfg : environmentVPCConfig)
    (hpub : ∀ s ∈ cfg.Subnets.Public, StringValue s.CIDR ≠ "")
    (hpriv : ∀ s ∈ cfg.Subnets.Private, StringValue s.CIDR ≠ "") :
    cfg.validateManagedVPC =
      managedChecks (azSet cfg.Subnets.Public) (azSet cfg.Subnets.Private)
        (cidrSet cfg.Subnets.Public) (cidrSet cfg.Subnets.Private) := by
  unfold environmentVPCConfig.validateManagedVPC
  rw [managedLoop_ok "public" 0 _ ∅ ∅ hpub, managedLoop_ok "private" 0 _ ∅ ∅ hpriv]
  simp

theorem validateManagedVPC_eq_none_iff (cfg : environmentVPCConfig) :
    cfg.validateManagedVPC = none ↔
      (∀ s ∈ cfg.Subnets.Public, StringValue s.CIDR ≠ "") ∧
      (∀ s ∈ cfg.Subnets.Private, StringValue s.CIDR ≠ "") ∧
      azSet cfg.Subnets.Public = azSet cfg.Subnets.Private ∧
      ((azSet cfg.Subnets.Public).card = 0 ∨
        (2 ≤ (azSet cfg.Subnets.Public).card ∧
          (cidrSet cfg.Subnets.Public).card = (azSet cfg.Subnets.Public).card ∧
          (cidrSet cfg.Subnets.Private).card = (azSet cfg.Subnets.Public).card)) := by
  by_cases hpub : ∀ s ∈ cfg.Subnets.Public, StringValue s.CIDR ≠ ""
  · by_cases hpriv : ∀ s ∈ cfg.Subnets.Private, StringValue s.CIDR ≠ ""
    · rw [validateManagedVPC_of_cidrs cfg hpub hpriv, managedChecks_eq_none_iff]
      exact ⟨fun h => ⟨hpub, hpriv, h⟩, fun h => h.2.2⟩
    · have hex : ∃ s ∈ cfg.Subnets.Private, StringValue s.CIDR = "" := by
        push_neg at hpriv; exact hpriv
      obtain ⟨e, he⟩ := managedLoop_error "private" 0 _ ∅ ∅ hex
      constructor
      · intro h
        unfold environmentVPCConfig.validateManagedVPC at h
        rw [managedLoop_ok "public" 0 _ ∅ ∅ hpub, he] at h
        simp at h
      · intro h
        exact absurd h.2.1 hpriv
  · have hex : ∃ s ∈ cfg.Subnets.Public, StringValue s.CIDR = "" := by
      push_neg at hpub; exact hpub
    obtain ⟨e, he⟩ := managedLoop_error "public" 0 _ ∅ ∅ hex
    constructor
    · intro h
      unfold environmentVPCConfig.validateManagedVPC at h
      rw [he] at h
      simp at h
    · intro h
      exact absurd h.1 hpub

theorem cidrSet_perm {l l' : List subnetConfiguration} (h : l.Perm l') :
    cidrSet l = cidrSet l' :=
  List.toFinset_eq_of_perm _ _ (h.map _)

theorem azSet_perm {l l' : List subnetConfiguration} (h : l.Perm l') :
    azSet l = azSet l' :=
  List.toFinset_eq_of_perm _ _ ((h.map _).filter _)

/-! ## Claims on the environment configuration -/

/-- C1 (counterexample): with two imported public subnets `sub-1`, `sub-2` and the placement
list `[sub-1, sub-1]`, Network, Observability and HTTP validation succeed, the VPC is imported
and every listed identifier is the `SubnetID` of a subnet, yet `environmentConfig.Validate`
returns the placement error. -/
theorem C1_repeated_placement_rejected :
    envRepeatedPlacement.Network.Validate = none ∧
    envRepeatedPlacement.Observability.Validate = none ∧
    envRepeatedPlacement.HTTPConfig.Validate arnAccept = none ∧
    envRepeatedPlacement.Network.VPC.imported = true ∧
    (∀ id ∈ sliceOf envRepeatedPlacement.HTTPConfig.Private.InternalALBSubnets,
      ∃ s ∈ envRepeatedPlacement.Network.VPC.Subnets.Public ++
          envRepeatedPlacement.Network.VPC.Subnets.Private, s.SubnetID = some id) ∧
    envRepeatedPlacement.Validate arnAccept =
      some (.errorsNew "subnet(s) specified for internal ALB placement not imported") := by
  refine ⟨by decide, by decide, by decide, by decide, by decide, by decide⟩

/-- C1 (amended): when Network, Observability and HTTP validation succeed, the VPC
is imported, the `InternalALBSubnets` list has no repeated identifier and every listed
identifier equals the `SubnetID` of some public or private subnet,
`environmentConfig.Validate` returns nil. -/
theorem C1_validate_nil_of_distinct_imported_placement (arnParse : String → Option Err)
    (e : environmentConfig)
    (hn : e.Network.Validate = none) (_ho : e.Observability.Validate = none)
    (hh : e.HTTPConfig.Validate arnParse = none)
    (himp : e.Network.VPC.imported = true)
    (hnodup : (sliceOf e.HTTPConfig.Private.InternalALBSubnets).Nodup)
    (hmem : ∀ id ∈ sliceOf e.HTTPConfig.Private.InternalALBSubnets,
      ∃ s ∈ e.Network.VPC.Subnets.Public ++ e.Network.VPC.Subnets.Private,
        s.SubnetID = some id) :
    e.Validate arnParse = none := by
  rw [environmentConfig_Validate_of_children arnParse e hn hh]
  have hok : e.validateInternalALBSubnets = none := by
    rw [validateInternalALBSubnets_eq_none_iff]
    refine ⟨hnodup, fun id hid => ?_⟩
    obtain ⟨s, hs, hsid⟩ := hmem id hid
    simp only [subnetIDs, List.mem_map, List.mem_append] at hs ⊢
    exact ⟨s, hs.symm, by simp [StringValue, hsid]⟩
  simp [himp, hok]

/-- C1 (witness): the amended statement applies to a placement into `sub-3` and `sub-1`
of an imported VPC. -/
theorem C1_validate_nil_of_distinct_imported_placement_witness :
    envPlacementImported.Validate arnAccept = none :=
  C1_validate_nil_of_distinct_imported_placement arnAccept envPlacementImported
    (by decide) (by decide) (by decide) (by decide) (by decide) (by decide)

/-- C2: `validateInternalALBSubnets` returns nil if and only if the `InternalALBSubnets` list
has no repeated identifier and every listed identifier is equal, as a string, to the
`SubnetID` value of some private or public subnet entry. -/
theorem C2_validateInternalALBSubnets_nil_iff (c : environmentConfig) :
    c.validateInternalALBSubnets = none ↔
      (sliceOf c.HTTPConfig.Private.InternalALBSubnets).Nodup ∧
      ∀ id ∈ sliceOf c.HTTPConfig.Private.InternalALBSubnets,
        ∃ s ∈ c.Network.VPC.Subnets.Private ++ c.Network.VPC.Subnets.Public,
          StringValue s.SubnetID = id := by
  rw [validateInternalALBSubnets_eq_none_iff]
  simp only [subnetIDs, List.mem_map]

/-- C3: when `InternalALBSubnets` is non-empty and the VPC is not imported,
`environmentConfig.Validate` returns an error, whatever the other fields and the certificate
parser are. -/
theorem C3_placement_requires_imported_vpc (arnParse : String → Option Err)
    (e : environmentConfig)
    (hne : sliceOf e.HTTPConfig.Private.InternalALBSubnets ≠ [])
    (himp : e.Network.VPC.imported = false) :
    e.Validate arnParse ≠ none := by
  have hset : e.HTTPConfig.Private.InternalALBSubnets ≠ none := by
    intro h
    exact hne (by simp [sliceOf, h])
  unfold environmentConfig.Validate
  cases e.Network.Validate with
  | some err => simp
  | none =>
    cases e.HTTPConfig.Validate arnParse with
    | some err => simp [environmentObservability.Validate]
    | none => simp [environmentObservability.Validate, hset, himp]

/-- C3 (witness): a valid managed VPC with the placement list `[sub-1]` is rejected. -/
theorem C3_placement_requires_imported_vpc_witness :
    envPlacementManaged.Validate arnAccept ≠ none :=
  C3_placement_requires_imported_vpc arnAccept envPlacementManaged (by decide) (by decide)

/-- C4 (counterexample): for the configuration without subnets whose `InternalALBSubnets` is
the empty list (length zero, not nil), Network, Observability and HTTP validation succeed, yet
`environmentConfig.Validate` returns the "subnets must be imported" error. -/
theorem C4_empty_placement_list_rejected :
    (sliceOf envEmptyPlacement.HTTPConfig.Private.InternalALBSubnets).length = 0 ∧
    envEmptyPlacement.Network.Validate = none ∧
    envEmptyPlacement.Observability.Validate = none ∧
    envEmptyPlacement.HTTPConfig.Validate arnAccept = none ∧
    envEmptyPlacement.Validate arnAccept = some (.errorsNew
      "in order to specify internal ALB subnet placement, subnets must be imported") := by
  refine ⟨by decide, by decide, by decide, by decide, by decide⟩

/-- C4 (amended): the internal-ALB placement rule is applied only when `InternalALBSubnets`
is not nil. When Network, Observability and HTTP validation succeed, and `InternalALBSubnets`
is nil, or is the empty list with an imported VPC, `environmentConfig.Validate` returns nil;
with a nil list this holds also when the VPC is not imported. -/
theorem C4_validate_nil_of_no_placement (arnParse : String → Option Err)
    (e : environmentConfig)
    (hlist : e.HTTPConfig.Private.InternalALBSubnets = none ∨
      (e.HTTPConfig.Private.InternalALBSubnets = some [] ∧ e.Network.VPC.imported = true))
    (hn : e.Network.Validate = none) (_ho : e.Observability.Validate = none)
    (hh : e.HTTPConfig.Validate arnParse = none) :
    e.Validate arnParse = none := by
  rw [environmentConfig_Validate_of_children arnParse e hn hh]
  rcases hlist with h | ⟨h, himp⟩
  · simp [h]
  · have hok : e.validateInternalALBSubnets = none := by
      rw [validateInternalALBSubnets_eq_none_iff]
      simp [h, sliceOf]
    simp [h, himp, hok]

/-- C4 (witness): a managed (not imported) VPC with a nil placement list validates. -/
theorem C4_validate_nil_of_no_placement_witness :
    envManagedNoPlacement.Network.VPC.imported = false ∧
    envManagedNoPlacement.Validate arnAccept = none :=
  ⟨by decide, C4_validate_nil_of_no_placement arnAccept envManagedNoPlacement
    (Or.inl (by decide)) (by decide) (by decide) (by decide)⟩

/-! ## Claims on the VPC configuration -/

/-- C5: when `imported()` and `managedVPCCustomized()` both hold (some subnet carries a
SubnetID and some subnet carries a CIDR or an AZ), `environmentVPCConfig.Validate` returns the
mutual-exclusivity error of the import and customize styles; the result does not depend on the
per-subnet checks or on the mode-specific checks, which come later. -/
theorem C5_import_and_customize_exclusive (cfg : environmentVPCConfig)
    (himp : cfg.imported = true) (hman : cfg.managedVPCCustomized = true) :
    cfg.Validate = some (.errorsNew ("cannot import VPC resources (with \"id\" fields) and "
      ++ "customize VPC resources (with \"cidr\" and \"az\" fields) at the same time")) := by
  unfold environmentVPCConfig.Validate
  simp [himp, hman]

/-- C5 (witness): an entry with both `id` and `cidr` would fail the per-subnet check, but the
VPC-level mutual-exclusivity error is the one returned. -/
theorem C5_import_and_customize_exclusive_witness :
    vpcMixed.Subnets.Validate ≠ none ∧
    vpcMixed.Validate = some (.errorsNew ("cannot import VPC resources (with \"id\" fields) "
      ++ "and customize VPC resources (with \"cidr\" and \"az\" fields) at the same time")) :=
  ⟨by decide, C5_import_and_customize_exclusive vpcMixed (by decide) (by decide)⟩

/-- C6: `validateImportedVPC` returns nil if and only if every public and every private entry
has a non-empty SubnetID, there is at least one subnet in total, the number of public subnets
is not 1 and the number of private subnets is not 1. -/
theorem C6_validateImportedVPC_nil_iff (cfg : environmentVPCConfig) :
    cfg.validateImportedVPC = none ↔
      (∀ s ∈ cfg.Subnets.Public, StringValue s.SubnetID ≠ "") ∧
      (∀ s ∈ cfg.Subnets.Private, StringValue s.SubnetID ≠ "") ∧
      0 < cfg.Subnets.Public.length + cfg.Subnets.Private.length ∧
      cfg.Subnets.Public.length ≠ 1 ∧ cfg.Subnets.Private.length ≠ 1 :=
  validateImportedVPC_eq_none_iff cfg

/-- C7: let `s` be a subnet entry whose SubnetID is missing or empty, at index `i`. If it is
the first such entry of the public list, or the public list has none and it is the first such
entry of the private list, `validateImportedVPC` returns the field-required error for `id`
wrapped with `validate public[i]`, respectively `validate private[i]`, whatever the subnet
counts are; and on an imported-mode configuration (imported, not customized)
`environmentVPCConfig.Validate` returns that error wrapped with
`validate "subnets" for an imported VPC`. -/
theorem C7_missing_id_reported_first (cfg : environmentVPCConfig) (i : Nat)
    (s : subnetConfiguration) (hs : StringValue s.SubnetID = "") :
    ((∀ t ∈ cfg.Subnets.Public.take i, StringValue t.SubnetID ≠ "") →
      cfg.Subnets.Public[i]? = some s →
        cfg.validateImportedVPC = some (.wrapf ("validate public[" ++ toString i ++ "]")
          (.errFieldMustBeSpecified "id")) ∧
        (cfg.imported = true → cfg.managedVPCCustomized = false →
          cfg.Validate = some (.wrapf "validate \"subnets\" for an imported VPC"
            (.wrapf ("validate public[" ++ toString i ++ "]")
              (.errFieldMustBeSpecified "id"))))) ∧
    ((∀ t ∈ cfg.Subnets.Public, StringValue t.SubnetID ≠ "") →
      (∀ t ∈ cfg.Subnets.Private.take i, StringValue t.SubnetID ≠ "") →
      cfg.Subnets.Private[i]? = some s →
        cfg.validateImportedVPC = some (.wrapf ("validate private[" ++ toString i ++ "]")
          (.errFieldMustBeSpecified "id")) ∧
        (cfg.imported = true → cfg.managedVPCCustomized = false →
          cfg.Validate = some (.wrapf "validate \"subnets\" for an imported VPC"
            (.wrapf ("validate private[" ++ toString i ++ "]")
              (.errFieldMustBeSpecified "id"))))) := by
  constructor
  · intro hpre hi
    have h1 : cfg.validateImportedVPC = some (.wrapf ("validate public[" ++ toString i ++ "]")
        (.errFieldMustBeSpecified "id")) := by
      unfold environmentVPCConfig.validateImportedVPC
      rw [importedLoop_first "public" 0 i _ s hpre hi hs]
      simp
    refine ⟨h1, fun himp hman => ?_⟩
    rw [Validate_of_imported_mode cfg himp hman, h1]
    rfl
  · intro hpub hpre hi
    have h1 : cfg.validateImportedVPC = some (.wrapf ("validate private[" ++ toString i ++ "]")
        (.errFieldMustBeSpecified "id")) := by
      unfold environmentVPCConfig.validateImportedVPC
      rw [(importedLoop_eq_none_iff "public" 0 _).mpr hpub,
        importedLoop_first "private" 0 i _ s hpre hi hs]
      simp
    refine ⟨h1, fun himp hman => ?_⟩
    rw [Validate_of_imported_mode cfg himp hman, h1]
    rfl

/-- C7 (witness): one public subnet (a count that the cardinality rule rejects) and a private
list whose entry 1 has no SubnetID: the error is the field-required error at `private[1]`. -/
theorem C7_missing_id_reported_first_witness :
    vpcMissingID.Subnets.Public.length = 1 ∧
    vpcMissingID.Validate = some (.wrapf "validate \"subnets\" for an imported VPC"
      (.wrapf "validate private[1]" (.errFieldMustBeSpecified "id"))) :=
  ⟨by decide, ((C7_missing_id_reported_first vpcMissingID 1 ⟨none, none, none⟩ (by decide)).2
    (by decide) (by decide) (by decide)).2 (by decide) (by decide)⟩

/-- C8: `validateManagedVPC` returns nil if and only if every public and private entry has a
non-empty CIDR, the set of non-empty public AZs equals the set of non-empty private AZs, and,
with n the size of that set, n = 0, or n >= 2 and the numbers of distinct public CIDRs and of
distinct private CIDRs are both n. -/
theorem C8_validateManagedVPC_nil_iff (cfg : environmentVPCConfig) :
    cfg.validateManagedVPC = none ↔
      (∀ s ∈ cfg.Subnets.Public, StringValue s.CIDR ≠ "") ∧
      (∀ s ∈ cfg.Subnets.Private, StringValue s.CIDR ≠ "") ∧
      azSet cfg.Subnets.Public = azSet cfg.Subnets.Private ∧
      ((azSet cfg.Subnets.Public).card = 0 ∨
        (2 ≤ (azSet cfg.Subnets.Public).card ∧
          (cidrSet cfg.Subnets.Public).card = (azSet cfg.Subnets.Public).card ∧
          (cidrSet cfg.Subnets.Private).card = (azSet cfg.Subnets.Public).card)) :=
  validateManagedVPC_eq_none_iff cfg

/-- C9: when every public and private entry has a non-empty CIDR and the set of public AZs
differs from the set of private AZs, `validateManagedVPC` returns `errAZsNotEqual`, whatever
the number of AZs and of distinct CIDRs. -/
theorem C9_az_mismatch_takes_precedence (cfg : environmentVPCConfig)
    (hpub : ∀ s ∈ cfg.Subnets.Public, StringValue s.CIDR ≠ "")
    (hpriv : ∀ s ∈ cfg.Subnets.Private, StringValue s.CIDR ≠ "")
    (hne : azSet cfg.Subnets.Public ≠ azSet cfg.Subnets.Private) :
    cfg.validateManagedVPC = some errAZsNotEqual := by
  rw [validateManagedVPC_of_cidrs cfg hpub hpriv]
  have hset : areSetsEqual (azSet cfg.Subnets.Public) (azSet cfg.Subnets.Private) = false := by
    rw [← Bool.not_eq_true, areSetsEqual_iff]; exact hne
  simp [managedChecks, hset]

/-- C9 (witness): public AZs a, b against private AZs a, c, with a single distinct public
CIDR (which the CIDR-count check would reject): the error is `errAZsNotEqual`. -/
theorem C9_az_mismatch_takes_precedence_witness :
    (cidrSet vpcAZMismatch.Subnets.Public).card = 1 ∧
    vpcAZMismatch.validateManagedVPC = some errAZsNotEqual :=
  ⟨by decide, C9_az_mismatch_takes_precedence vpcAZMismatch (by decide) (by decide) (by decide)⟩

/-- C10: acceptance by `validateManagedVPC` does not depend on the order of the entries: if
the public lists of two configurations are permutations of each other, and so are the private
lists, `validateManagedVPC` returns nil on one if and only if it does on the other. -/
theorem C10_validateManagedVPC_order_independent (cfg cfg' : environmentVPCConfig)
    (hpub : cfg.Subnets.Public.Perm cfg'.Subnets.Public)
    (hpriv : cfg.Subnets.Private.Perm cfg'.Subnets.Private) :
    cfg.validateManagedVPC = none ↔ cfg'.validateManagedVPC = none := by
  rw [validateManagedVPC_eq_none_iff, validateManagedVPC_eq_none_iff,
    cidrSet_perm hpub, cidrSet_perm hpriv, azSet_perm hpub, azSet_perm hpriv]
  have h1 : (∀ s ∈ cfg.Subnets.Public, StringValue s.CIDR ≠ "") ↔
      ∀ s ∈ cfg'.Subnets.Public, StringValue s.CIDR ≠ "" :=
    ⟨fun h s hs => h s (hpub.mem_iff.mpr hs), fun h s hs => h s (hpub.mem_iff.mp hs)⟩
  have h2 : (∀ s ∈ cfg.Subnets.Private, StringValue s.CIDR ≠ "") ↔
      ∀ s ∈ cfg'.Subnets.Private, StringValue s.CIDR ≠ "" :=
    ⟨fun h s hs => h s (hpriv.mem_iff.mpr hs), fun h s hs => h s (hpriv.mem_iff.mp hs)⟩
  rw [h1, h2]

/-- C10 (witness): public AZs [a, b] with private AZs [b, a] is accepted, as [a, b] with
[a, b] is. -/
theorem C10_validateManagedVPC_order_independent_witness :
    vpcTwoAZs.validateManagedVPC = none ∧ vpcTwoAZsSwapped.validateManagedVPC = none :=
  ⟨by decide, (C10_validateManagedVPC_order_independent vpcTwoAZs vpcTwoAZsSwapped
    (List.Perm.refl _) (List.Perm.swap _ _ _)).mp (by decide)⟩

/-! ## Lemmas: per-entry and certificate loops -/

theorem subnetsLoop_eq_none_iff (side : String) (idx : Nat) (l : List subnetConfiguration) :
    subnetsLoop side idx l = none ↔ ∀ s ∈ l, s.Validate = none := by
  induction l generalizing idx with
  | nil => simp [subnetsLoop]
  | cons s rest ih =>
    cases h : s.Validate with
    | none => simp [subnetsLoop, h, ih]
    | some err => simp [subnetsLoop, h]

theorem subnetsLoop_first (side : String) (idx i : Nat) (l : List subnetConfiguration)
    (s : subnetConfiguration) (err : Err) (hpre : ∀ t ∈ l.take i, t.Validate = none)
    (hi : l[i]? = some s) (hs : s.Validate = some err) :
    subnetsLoop side idx l =
      some (.wrapf ("validate \"" ++ side ++ "[" ++ toString (idx + i) ++ "]\"") err) := by
  induction l generalizing idx i with
  | nil => simp at hi
  | cons a rest ih =>
    cases i with
    | zero =>
      simp at hi
      subst hi
      simp [subnetsLoop, hs]
    | succ j =>
      have ha : a.Validate = none := hpre a (by simp)
      have hrest : ∀ t ∈ rest.take j, t.Validate = none := fun t ht => hpre t (by simp [ht])
      simp only [List.getElem?_cons_succ] at hi
      simp only [subnetsLoop, ha]
      rw [ih (idx + 1) j hrest hi, Nat.add_right_comm idx 1 j, Nat.add_assoc idx j 1]

theorem certificatesLoop_eq_none_iff (arnParse : String → Option Err) (idx : Nat)
    (l : List String) :
    certificatesLoop arnParse idx l = none ↔ ∀ c ∈ l, arnParse c = none := by
  induction l generalizing idx with
  | nil => simp [certificatesLoop]
  | cons c rest ih =>
    cases h : arnParse c with
    | none => simp [certificatesLoop, h, ih]
    | some err => simp [certificatesLoop, h]

theorem certificatesLoop_first (arnParse : String → Option Err) (idx i : Nat)
    (l : List String) (c : String) (err : Err)
    (hpre : ∀ d ∈ l.take i, arnParse d = none)
    (hi : l[i]? = some c) (hc : arnParse c = some err) :
    certificatesLoop arnParse idx l =
      some (.wrapf ("parse \"certificates[" ++ toString (idx + i) ++ "]\"") err) := by
  induction l generalizing idx i with
  | nil => simp at hi
  | cons a rest ih =>
    cases i with
    | zero =>
      simp at hi
      subst hi
      simp [certificatesLoop, hc]
    | succ j =>
      have ha : arnParse a = none := hpre a (by simp)
      have hrest : ∀ d ∈ rest.take j, arnParse d = none := fun d hd => hpre d (by simp [hd])
      simp only [List.getElem?_cons_succ] at hi
      simp only [certificatesLoop, ha]
      rw [ih (idx + 1) j hrest hi, Nat.add_right_comm idx 1 j, Nat.add_assoc idx j 1]

/-! ## Lemmas: map iteration order -/

theorem rangeLoop_eq_true_iff {T : Type} [DecidableEq T] (b : Finset T) (ks : List T) :
    rangeLoop b ks = true ↔ ∀ k ∈ ks, k ∈ b := by
  induction ks with
  | nil => simp [rangeLoop]
  | cons k rest ih =>
    by_cases h : k ∈ b <;> simp [rangeLoop, h, ih]

theorem areSetsEqualIn_eq {T : Type} [DecidableEq T] (order : Finset T → List T)
    (horder : keysOrder order) (a b : Finset T) :
    areSetsEqualIn order a b = areSetsEqual a b := by
  unfold areSetsEqualIn areSetsEqual
  have hmem : ∀ k, k ∈ order a ↔ k ∈ a := fun k => by
    rw [← List.mem_toFinset, (horder a).2]
  split
  · rfl
  · rw [Bool.eq_iff_iff, rangeLoop_eq_true_iff, decide_eq_true_iff]
    exact ⟨fun h k hk => h k ((hmem k).mpr hk), fun h k hk => h k ((hmem k).mp hk)⟩

theorem validateManagedVPCIn_eq (order : Finset String → List String)
    (horder : keysOrder order) (cfg : environmentVPCConfig) :
    cfg.validateManagedVPCIn order = cfg.validateManagedVPC := by
  unfold environmentVPCConfig.validateManagedVPCIn environmentVPCConfig.validateManagedVPC
    managedChecksIn managedChecks
  simp only [areSetsEqualIn_eq order horder]

theorem environmentConfig_ValidateIn_eq (order : Finset String → List String)
    (horder : keysOrder order) (arnParse : String → Option Err) (e : environmentConfig) :
    e.ValidateIn order arnParse = e.Validate arnParse := by
  unfold environmentConfig.ValidateIn environmentConfig.Validate
    environmentNetworkConfig.ValidateIn environmentNetworkConfig.Validate
    environmentVPCConfig.ValidateIn environmentVPCConfig.Validate
  simp only [validateManagedVPCIn_eq order horder]

theorem keysOrder_ascendingOrder : keysOrder ascendingOrder := fun m =>
  ⟨Finset.sort_nodup _ m, Finset.sort_toFinset _ m⟩

theorem keysOrder_descendingOrder : keysOrder descendingOrder := fun m =>
  ⟨List.nodup_reverse.mpr (Finset.sort_nodup _ m), by
    rw [descendingOrder, List.toFinset_reverse, Finset.sort_toFinset]⟩

/-! ## Lemmas: what a successful validation implies -/

theorem environmentConfig_Validate_eq_none (arnParse : String → Option Err)
    (e : environmentConfig) (h : e.Validate arnParse = none) :
    e.Network.Validate = none ∧ e.HTTPConfig.Validate arnParse = none := by
  unfold environmentConfig.Validate at h
  cases hn : e.Network.Validate with
  | some err => simp [hn] at h
  | none =>
    cases hh : e.HTTPConfig.Validate arnParse with
    | some err => simp [hn, hh, environmentObservability.Validate] at h
    | none => exact ⟨rfl, rfl⟩

theorem validateImportedVPC_of_Validate (cfg : environmentVPCConfig)
    (h : cfg.Validate = none) (himp : cfg.imported = true) :
    cfg.validateImportedVPC = none := by
  unfold environmentVPCConfig.Validate at h
  by_cases hman : cfg.managedVPCCustomized = true
  · simp [himp, hman] at h
  · cases hs : cfg.Subnets.Validate with
    | some err => simp [himp, hman, hs] at h
    | none =>
      cases hi : cfg.validateImportedVPC with
      | some err => simp [himp, hman, hs, hi] at h
      | none => rfl

theorem VPC_Validate_of_Network (n : environmentNetworkConfig) (h : n.Validate = none) :
    n.VPC.Validate = none := by
  unfold environmentNetworkConfig.Validate at h
  cases hv : n.VPC.Validate with
  | some err => simp [hv] at h
  | none => rfl

/-! ## Claims on the managed layout and on subnet entries -/

/-- C11 (the code at the failing input): three public entries over the AZs a and b, the third
repeating the CIDR and the AZ of the first, with two private entries over a and b, are
accepted by `validateManagedVPC` and by `environmentVPCConfig.Validate`, although there are
3 public entries for 2 AZs and the AZ a is carried by two public entries. -/
theorem C11_repeated_cidr_accepted :
    vpcRepeatedCIDR.validateManagedVPC = none ∧
    vpcRepeatedCIDR.Validate = none ∧
    (azSet vpcRepeatedCIDR.Subnets.Public).card = 2 ∧
    vpcRepeatedCIDR.Subnets.Public.length = 3 ∧
    (vpcRepeatedCIDR.Subnets.Public.filter fun s => StringValue s.AZ = "a").length = 2 := by
  refine ⟨by decide, by decide, by decide, by decide, by decide⟩

/-- C12 (counterexample): the entry `id: ""`, `cidr: 10.0.0.0/24` has an empty SubnetID, yet
`subnetConfiguration.Validate` returns the mutual-exclusivity error for `id` and `cidr`. -/
theorem C12_present_empty_id_rejected :
    StringValue subnetEmptyID.SubnetID = "" ∧
    subnetEmptyID.Validate = some (.errFieldMutualExclusive "id" "cidr" false) := by
  refine ⟨by decide, by decide⟩

/-- C12 (amended): `subnetConfiguration.Validate` returns an error if and only if SubnetID is
present (not nil) together with a present CIDR or a present AZ; the error names `id` and
`cidr` when SubnetID and CIDR are both present (also when AZ is present too), otherwise `id`
and `az`, always with `mustExist = false`; an entry without SubnetID is valid, whatever its
CIDR and AZ are. -/
theorem C12_subnet_Validate_error_iff (c : subnetConfiguration) :
    (c.Validate ≠ none ↔ c.SubnetID ≠ none ∧ (c.CIDR ≠ none ∨ c.AZ ≠ none)) ∧
    (c.SubnetID ≠ none → c.CIDR ≠ none →
      c.Validate = some (.errFieldMutualExclusive "id" "cidr" false)) ∧
    (c.SubnetID ≠ none → c.CIDR = none → c.AZ ≠ none →
      c.Validate = some (.errFieldMutualExclusive "id" "az" false)) ∧
    (c.SubnetID = none → c.Validate = none) := by
  unfold subnetConfiguration.Validate
  refine ⟨?_, ?_, ?_, ?_⟩
  · by_cases h1 : c.SubnetID = none <;> by_cases h2 : c.CIDR = none <;>
      by_cases h3 : c.AZ = none <;> simp [h1, h2, h3]
  · intro h1 h2
    simp [h1, h2]
  · intro h1 h2 h3
    simp [h1, h2, h3]
  · intro h1
    simp [h1]

/-- C12 (witness): an entry with the three fields gets the `id`/`cidr` error, and an entry
with CIDR and AZ only is valid. -/
theorem C12_subnet_Validate_error_iff_witness :
    subnetAllFields.Validate = some (.errFieldMutualExclusive "id" "cidr" false) ∧
    (managedSubnet "10.0.0.0/24" "a").Validate = none :=
  ⟨(C12_subnet_Validate_error_iff subnetAllFields).2.1 (by decide) (by decide),
    (C12_subnet_Validate_error_iff (managedSubnet "10.0.0.0/24" "a")).2.2.2 (by decide)⟩

/-- C13: `subnetsConfiguration.Validate` returns nil if and only if every public and every
private entry passes `subnetConfiguration.Validate`; otherwise it returns the error of the
first invalid entry, the public list (in index order) before the private list, wrapped with
`validate "public[i]"` or `validate "private[i]"` for the index `i` of that entry. -/
theorem C13_subnets_Validate_first_invalid (cs : subnetsConfiguration) :
    (cs.Validate = none ↔ ∀ s ∈ cs.Public ++ cs.Private, s.Validate = none) ∧
    (∀ (i : Nat) (s : subnetConfiguration) (err : Err),
      (∀ t ∈ cs.Public.take i, t.Validate = none) → cs.Public[i]? = some s →
      s.Validate = some err →
        cs.Validate = some (.wrapf ("validate \"public[" ++ toString i ++ "]\"") err)) ∧
    (∀ (i : Nat) (s : subnetConfiguration) (err : Err),
      (∀ t ∈ cs.Public, t.Validate = none) →
      (∀ t ∈ cs.Private.take i, t.Validate = none) → cs.Private[i]? = some s →
      s.Validate = some err →
        cs.Validate = some (.wrapf ("validate \"private[" ++ toString i ++ "]\"") err)) := by
  refine ⟨?_, ?_, ?_⟩
  · unfold subnetsConfiguration.Validate
    cases h : subnetsLoop "public" 0 cs.Public with
    | some err =>
      have hne : ¬ ∀ s ∈ cs.Public, s.Validate = none := fun hall => by
        rw [(subnetsLoop_eq_none_iff "public" 0 cs.Public).mpr hall] at h
        exact Option.noConfusion h
      constructor
      · intro h'
        exact Option.noConfusion h'
      · intro hall
        exact absurd (fun s hs => hall s (List.mem_append_left _ hs)) hne
    | none =>
      have hpub := (subnetsLoop_eq_none_iff "public" 0 cs.Public).mp h
      simp only [subnetsLoop_eq_none_iff, List.mem_append]
      exact ⟨fun hpriv s hs => hs.elim (hpub s) (hpriv s), fun hall s hs => hall s (Or.inr hs)⟩
  · intro i s err hpre hi hs
    unfold subnetsConfiguration.Validate
    rw [subnetsLoop_first "public" 0 i cs.Public s err hpre hi hs]
    simp
  · intro i s err hpub hpre hi hs
    unfold subnetsConfiguration.Validate
    rw [(subnetsLoop_eq_none_iff "public" 0 cs.Public).mpr hpub,
      subnetsLoop_first "private" 0 i cs.Private s err hpre hi hs]
    simp

/-- C13 (witness): public entry 1 and private entry 0 are both invalid; the error is the one
of public entry 1. -/
theorem C13_subnets_Validate_first_invalid_witness :
    subnetsSecondPublicInvalid.Validate =
      some (.wrapf "validate \"public[1]\"" (.errFieldMutualExclusive "id" "az" false)) :=
  (C13_subnets_Validate_first_invalid subnetsSecondPublicInvalid).2.1 1
    ⟨some "sub-2", none, some "a"⟩ (.errFieldMutualExclusive "id" "az" false)
    (by decide) (by decide) (by decide)

/-! ## Claims on the order of the checks, the error path and the HTTP configuration -/

/-- C14: `environmentConfig.Validate` checks Network, then Observability, then HTTP, then the
ALB placement, and stops at the first failure: when Network validation fails with `err`, the
result is `err` wrapped with `validate "network"` for every Observability and HTTP
configuration (so for every `InternalALBSubnets`) and every certificate parser; when it
succeeds and HTTP validation fails with `err`, the result is `err` wrapped with
`validate "http config"`, whatever `InternalALBSubnets` is. -/
theorem C14_network_error_first (n : environmentNetworkConfig) (err : Err)
    (arnParse : String → Option Err) (o : environmentObservability)
    (http : environmentHTTPConfig) :
    (n.Validate = some err →
      environmentConfig.Validate arnParse ⟨n, o, http⟩ =
        some (.wrapf "validate \"network\"" err)) ∧
    (n.Validate = none → http.Validate arnParse = some err →
      environmentConfig.Validate arnParse ⟨n, o, http⟩ =
        some (.wrapf "validate \"http config\"" err)) := by
  constructor
  · intro hn
    simp [environmentConfig.Validate, hn]
  · intro hn hh
    simp [environmentConfig.Validate, hn, hh, environmentObservability.Validate]

/-- C14 (witness): public = [sub-1, sub-2], private = [sub-3], InternalALBSubnets = [sub-1]
fails on the private-subnet count, wrapped with `validate "network"`. -/
theorem C14_network_error_first_witness :
    envOnePrivate.Validate arnAccept =
      some (.wrapf "validate \"network\"" (.wrapf "validate \"vpc\""
        (.wrapf "validate \"subnets\" for an imported VPC"
          (.errorsNew "validate \"private\": at least two private subnets must be imported")))) :=
  (C14_network_error_first envOnePrivate.Network _ arnAccept envOnePrivate.Observability
    envOnePrivate.HTTPConfig).1 (by decide)

/-- C15 (the code at the failing inputs): `Environment.Validate` puts `validate "network"` in
front of every error. The text for an unparsable public certificate starts with
`validate "network": validate "http config":`, and the text for a private-subnet count
failure starts with `validate "network": validate "network":`. -/
theorem C15_outer_segment_always_network :
    (Environment.Validate arnSample environmentBadCertificate).map (Err.Error sampleTexts) =
      some ("validate \"network\": validate \"http config\": validate \"public\": "
        ++ "parse \"certificates[1]\": arn: invalid prefix") ∧
    (Environment.Validate arnAccept environmentOnePrivate).map (Err.Error sampleTexts) =
      some ("validate \"network\": validate \"network\": validate \"vpc\": "
        ++ "validate \"subnets\" for an imported VPC: "
        ++ "validate \"private\": at least two private subnets must be imported") := by
  refine ⟨by decide, by decide⟩

/-- C16: when neither `imported()` nor `managedVPCCustomized()` holds (no subnet carries a
SubnetID, a CIDR or an AZ; in particular when there is no subnet),
`environmentVPCConfig.Validate` returns nil. -/
theorem C16_validate_nil_without_mode (cfg : environmentVPCConfig)
    (himp : cfg.imported = false) (hman : cfg.managedVPCCustomized = false) :
    cfg.Validate = none := by
  unfold environmentVPCConfig.Validate
  rw [subnets_Validate_of_not_customized cfg hman]
  simp [himp, hman]

/-- C16 (witness): a VPC whose only entry has none of the three fields validates. -/
theorem C16_validate_nil_without_mode_witness :
    vpcBareEntry.Validate = none :=
  C16_validate_nil_without_mode vpcBareEntry (by decide) (by decide)

/-- C17: for a given ARN parser, `environmentHTTPConfig.Validate` returns nil if and only if
every certificate identifier of the public and of the private list parses; otherwise it
returns the parse error of the first identifier that does not parse, the public list before
the private list, wrapped with `parse "certificates[i]"` for its index `i` and then with
`validate "public"`, respectively `validate "private"`; the field `InternalALBSubnets` has no
influence on the result. -/
theorem C17_http_Validate_first_unparsable (arnParse : String → Option Err)
    (cfg : environmentHTTPConfig) :
    (cfg.Validate arnParse = none ↔
      ∀ c ∈ cfg.Public.Certificates ++ cfg.Private.Certificates, arnParse c = none) ∧
    (∀ (i : Nat) (c : String) (err : Err),
      (∀ d ∈ cfg.Public.Certificates.take i, arnParse d = none) →
      cfg.Public.Certificates[i]? = some c → arnParse c = some err →
        cfg.Validate arnParse = some (.wrapf "validate \"public\""
          (.wrapf ("parse \"certificates[" ++ toString i ++ "]\"") err))) ∧
    (∀ (i : Nat) (c : String) (err : Err),
      (∀ d ∈ cfg.Public.Certificates, arnParse d = none) →
      (∀ d ∈ cfg.Private.Certificates.take i, arnParse d = none) →
      cfg.Private.Certificates[i]? = some c → arnParse c = some err →
        cfg.Validate arnParse = some (.wrapf "validate \"private\""
          (.wrapf ("parse \"certificates[" ++ toString i ++ "]\"") err))) ∧
    (∀ alb : Option (List String),
      environmentHTTPConfig.Validate arnParse
          ⟨cfg.Public, ⟨alb, cfg.Private.Certificates⟩⟩ = cfg.Validate arnParse) := by
  refine ⟨?_, ?_, ?_, ?_⟩
  · unfold environmentHTTPConfig.Validate publicHTTPConfig.Validate privateHTTPConfig.Validate
    cases h : certificatesLoop arnParse 0 cfg.Public.Certificates with
    | some err =>
      have hne : ¬ ∀ c ∈ cfg.Public.Certificates, arnParse c = none := fun hall => by
        rw [(certificatesLoop_eq_none_iff arnParse 0 _).mpr hall] at h
        exact Option.noConfusion h
      constructor
      · intro h'
        exact Option.noConfusion h'
      · intro hall
        exact absurd (fun c hc => hall c (List.mem_append_left _ hc)) hne
    | none =>
      have hpub := (certificatesLoop_eq_none_iff arnParse 0 _).mp h
      cases h2 : certificatesLoop arnParse 0 cfg.Private.Certificates with
      | some err =>
        have hne : ¬ ∀ c ∈ cfg.Private.Certificates, arnParse c = none := fun hall => by
          rw [(certificatesLoop_eq_none_iff arnParse 0 _).mpr hall] at h2
          exact Option.noConfusion h2
        constructor
        · intro h'
          exact Option.noConfusion h'
        · intro hall
          exact absurd (fun c hc => hall c (List.mem_append_right _ hc)) hne
      | none =>
        have hpriv := (certificatesLoop_eq_none_iff arnParse 0 _).mp h2
        exact ⟨fun _ c hc => (List.mem_append.mp hc).elim (hpub c) (hpriv c), fun _ => rfl⟩
  · intro i c err hpre hi hc
    unfold environmentHTTPConfig.Validate publicHTTPConfig.Validate
    rw [certificatesLoop_first arnParse 0 i _ c err hpre hi hc]
    simp
  · intro i c err hpub hpre hi hc
    unfold environmentHTTPConfig.Validate publicHTTPConfig.Validate privateHTTPConfig.Validate
    rw [(certificatesLoop_eq_none_iff arnParse 0 _).mpr hpub,
      certificatesLoop_first arnParse 0 i _ c err hpre hi hc]
    simp
  · intro alb
    rfl

/-- C17 (witness): public certificate 1 and the private certificate do not parse; the error
is the one of public certificate 1. -/
theorem C17_http_Validate_first_unparsable_witness :
    httpBadCertificate.Validate arnSample = some (.wrapf "validate \"public\""
      (.wrapf "parse \"certificates[1]\"" (.errorsNew "arn: invalid prefix"))) :=
  (C17_http_Validate_first_unparsable arnSample httpBadCertificate).2.1 1 "certificate-1"
    (.errorsNew "arn: invalid prefix") (by decide) (by decide) (by decide)

/-! ## Claims on determinism, set equality and accepted placements -/

/-- C18: the result of `environmentConfig.Validate` is a function of the tree; in particular
it does not depend on the order in which the keys of a map are iterated: for any two
iteration orders the validation run under one returns the same result (nil or the same error
value, hence the same text) as the run under the other, namely `environmentConfig.Validate`
of the tree. -/
theorem C18_validate_independent_of_map_order (orderA orderB : Finset String → List String)
    (hA : keysOrder orderA) (hB : keysOrder orderB)
    (arnParse : String → Option Err) (e : environmentConfig) :
    e.ValidateIn orderA arnParse = e.ValidateIn orderB arnParse ∧
    e.ValidateIn orderA arnParse = e.Validate arnParse := by
  rw [environmentConfig_ValidateIn_eq orderA hA, environmentConfig_ValidateIn_eq orderB hB]
  exact ⟨rfl, rfl⟩

/-- C18 (witness): with public AZs a, b and private AZs a, c, the ascending order meets the
foreign key b second and the descending order meets it first; both runs return the same
error. -/
theorem C18_validate_independent_of_map_order_witness :
    envAZMismatch.ValidateIn ascendingOrder arnAccept =
      envAZMismatch.ValidateIn descendingOrder arnAccept ∧
    envAZMismatch.ValidateIn ascendingOrder arnAccept = envAZMismatch.Validate arnAccept :=
  C18_validate_independent_of_map_order ascendingOrder descendingOrder
    keysOrder_ascendingOrder keysOrder_descendingOrder arnAccept envAZMismatch

/-- C19: `areSetsEqual` decides set equality: it returns true if and only if the two sets
have exactly the same keys; it is reflexive and symmetric. The same holds when the keys of
the first set are iterated in any order. -/
theorem C19_areSetsEqual_decides_equality {T : Type} [DecidableEq T] (a b : Finset T) :
    (areSetsEqual a b = true ↔ ∀ k, k ∈ a ↔ k ∈ b) ∧
    areSetsEqual a a = true ∧
    areSetsEqual a b = areSetsEqual b a ∧
    (∀ order : Finset T → List T, keysOrder order →
      (areSetsEqualIn order a b = true ↔ ∀ k, k ∈ a ↔ k ∈ b)) := by
  refine ⟨?_, ?_, ?_, ?_⟩
  · rw [areSetsEqual_iff, Finset.ext_iff]
  · exact (areSetsEqual_iff a a).mpr rfl
  · rw [Bool.eq_iff_iff, areSetsEqual_iff, areSetsEqual_iff]
    exact eq_comm
  · intro order horder
    rw [areSetsEqualIn_eq order horder, areSetsEqual_iff, Finset.ext_iff]

/-- C20: when `environmentConfig.Validate` returns nil and `InternalALBSubnets` is set (not
nil), the VPC is imported, every subnet entry has a non-empty SubnetID, and the listed
identifiers are non-empty, pairwise distinct and each the SubnetID of some public or private
subnet; so the list is no longer than the number of distinct imported subnet IDs. -/
theorem C20_accepted_placement (arnParse : String → Option Err) (e : environmentConfig)
    (l : List String) (hv : e.Validate arnParse = none)
    (hset : e.HTTPConfig.Private.InternalALBSubnets = some l) :
    e.Network.VPC.imported = true ∧
    (∀ s ∈ e.Network.VPC.Subnets.Public ++ e.Network.VPC.Subnets.Private,
      StringValue s.SubnetID ≠ "") ∧
    (∀ id ∈ l, id ≠ "") ∧
    l.Nodup ∧
    (∀ id ∈ l, ∃ s ∈ e.Network.VPC.Subnets.Public ++ e.Network.VPC.Subnets.Private,
      s.SubnetID = some id) ∧
    l.length ≤ (subnetIDs
      (e.Network.VPC.Subnets.Public ++ e.Network.VPC.Subnets.Private)).toFinset.card := by
  obtain ⟨hn, hh⟩ := environmentConfig_Validate_eq_none arnParse e hv
  have hv2 := hv
  rw [environmentConfig_Validate_of_children arnParse e hn hh] at hv2
  have himp : e.Network.VPC.imported = true := by
    by_contra hni
    simp [hset, hni] at hv2
  have halb : e.validateInternalALBSubnets = none := by
    simpa [hset, himp] using hv2
  have hvpc := VPC_Validate_of_Network e.Network hn
  have hivpc := (validateImportedVPC_eq_none_iff _).mp
    (validateImportedVPC_of_Validate _ hvpc himp)
  have hids : ∀ s ∈ e.Network.VPC.Subnets.Public ++ e.Network.VPC.Subnets.Private,
      StringValue s.SubnetID ≠ "" := fun s hs =>
    (List.mem_append.mp hs).elim (hivpc.1 s) (hivpc.2.1 s)
  obtain ⟨hnd, hmem⟩ := (validateInternalALBSubnets_eq_none_iff e).mp halb
  simp only [hset, sliceOf, Option.getD_some] at hnd hmem
  have hfound : ∀ id ∈ l, ∃ s ∈ e.Network.VPC.Subnets.Public ++ e.Network.VPC.Subnets.Private,
      StringValue s.SubnetID = id := fun id hid => by
    have := hmem id hid
    simp only [subnetIDs, List.mem_map, List.mem_append] at this
    obtain ⟨s, hs, hsid⟩ := this
    exact ⟨s, List.mem_append.mpr hs.symm, hsid⟩
  refine ⟨himp, hids, ?_, hnd, ?_, ?_⟩
  · intro id hid hempty
    obtain ⟨s, hs, hsid⟩ := hfound id hid
    exact hids s hs (hsid.trans hempty)
  · intro id hid
    obtain ⟨s, hs, hsid⟩ := hfound id hid
    refine ⟨s, hs, ?_⟩
    cases hsome : s.SubnetID with
    | none => exact absurd (by simp [StringValue, hsome]) (hids s hs)
    | some x =>
      rw [hsome] at hsid
      simpa [StringValue] using hsid
  · rw [← List.toFinset_card_of_nodup hnd]
    apply Finset.card_le_card
    intro id hid
    rw [List.mem_toFinset] at hid ⊢
    obtain ⟨s, hs, hsid⟩ := hfound id hid
    exact List.mem_map.mpr ⟨s, hs, hsid⟩

/-- C20 (witness): the accepted placement into `sub-3` and `sub-1` of an imported VPC. -/
theorem C20_accepted_placement_witness :
    envPlacementImported.Network.VPC.imported = true ∧
    ["sub-3", "sub-1"].Nodup ∧
    ["sub-3", "sub-1"].length ≤ (subnetIDs
      (envPlacementImported.Network.VPC.Subnets.Public ++
        envPlacementImported.Network.VPC.Subnets.Private)).toFinset.card :=
  have h := C20_accepted_placement arnAccept envPlacementImported ["sub-3", "sub-1"]
    (by decide) (by decide)
  ⟨h.1, h.2.2.2.1, h.2.2.2.2.2⟩

end Manifest
